import Mathlib

/-!
# DSiSc/syncer: the block synchroniser (`block_syncer.go`)

A shallow embedding of `BlockSyncer`: the message dispatcher `recvHandler`, the request
scheduler `reqHandler`, and the subscription bookkeeping of `Start` / `Stop`.

Conventions of the embedding.

* Collaborators that live outside the package (chain storage, peer transport, event
  center) appear through the calls the syncer makes on them.  Storage is a record of the
  three getters the syncer calls; the transport is the list of `SendMsg` / `Gather` calls
  it receives together with the error outcome of each `SendMsg`.
* Go channels are lists of the events taken from them, in the order `select` took them.
* `uint64` heights are natural numbers; the one addition performed on them is reduced
  modulo `2 ^ 64`.
-/

namespace Syncer

/-! ## Data carried by the protocol -/

/-- A `types.Hash`; the syncer only stores hashes and passes them on. -/
abbrev Hash := Nat

/-- A `*p2p.Peer`, the `From` of an inbound message and the target of `SendMsg`. -/
abbrev Peer := Nat

/-- A `types.Header`.  The syncer reads `Height` (a `uint64`) only; `Fields` stands for
every other field of the header. -/
structure Header where
  Height : Nat
  Fields : Nat
deriving DecidableEq, Repr

/-- A `types.Block`.  The syncer reads `Header` and `HeaderHash`; `Body` stands for the
rest of the block. -/
structure Block where
  Header : Header
  HeaderHash : Hash
  Body : Nat
deriving DecidableEq, Repr

/-- The payloads of package `message` that `recvHandler` switches over.  `Other` is any
payload type without a case in the switch.  `Len` is the request count, an unsigned
integer whose Go type is declared in package `message`; `int(brmsg.Len)` is that same
number. -/
inductive Payload where
  | Block (Block : Block)
  | BlockReq (HeaderHash : Hash)
  | BlockHeaders (Headers : List Header)
  | BlockHeaderReq (Len : Nat) (HashStart : Hash) (HashStop : Hash)
  | Other (kind : Nat)
deriving DecidableEq, Repr

/-- An inbound message as delivered on `p2p.MessageChan()`. -/
structure Message where
  From : Peer
  Payload : Payload
deriving DecidableEq, Repr

/-- The three getters of `blockchain.BlockChain` the syncer calls.  A getter that returns
an error in Go returns `none` here. -/
structure BlockChain where
  GetCurrentBlock : Block
  GetBlockByHash : Hash → Option Block
  GetBlockByHeight : Nat → Option Block

/-- What the dispatcher does to the outside world, in program order. -/
inductive Effect where
  | sendChan (block : Block)
  | SendMsg (peer : Peer) (payload : Payload) (ok : Bool)
  | logError
deriving DecidableEq, Repr

/-- The surroundings of one pass through the dispatcher's `select`: the storage as it is
while the message is handled, and for the n-th `SendMsg` call made while handling it
whether the call returns a nil error. -/
structure Env where
  chain : BlockChain
  sendOk : Nat → Bool

/-- Result of handling one inbound message: the effects, whether the `for` loop of
`recvHandler` goes on to its next iteration (`false`: the function returned), and the
payload object as the handler left it (the `BlockHeaderReq` case assigns to `Len`). -/
structure Step where
  effects : List Effect
  running : Bool
  payload : Payload
deriving DecidableEq, Repr

/-! ## recvHandler -/

/-- Modulus of `uint64` arithmetic. -/
def uint64Size : Nat := 2 ^ 64

/-- The height `blockStop.Header.Height + uint64(i)` of line 148. -/
def heightAfter (anchor i : Nat) : Nat := (anchor + i) % uint64Size

/-- The effective count of lines 138-140: `if brmsg.Len <= 0 { brmsg.Len = MAX }`. -/
def effectiveLen (maxBlockHeaderNum len : Nat) : Nat :=
  if len ≤ 0 then maxBlockHeaderNum else len

/-- The loop of lines 147-154, `for i := ...; i <= int(brmsg.Len); i++`, entered with
loop variable `i`, `todo` iterations left and the headers appended so far.  Returns the
final `blockHeaders` and whether the loop left through `break` (after logging). -/
def headerLoop (chain : BlockChain) (anchor : Nat) :
    Nat → Nat → List Header → List Header × Bool
  | 0, _, blockHeaders => (blockHeaders, false)
  | todo + 1, i, blockHeaders =>
    match chain.GetBlockByHeight (heightAfter anchor i) with
    | none => (blockHeaders, true)
    | some block => headerLoop chain anchor todo (i + 1) (blockHeaders ++ [block.Header])

/-- The loop of lines 123-135 over `bhmsg.Headers`, entered at the headers still to be
visited; `n` counts the `SendMsg` calls already made for this message.  Returns the
effects and whether the loop ran to its end (`false`: left through `return`). -/
def blockReqLoop (headerHash : Header → Hash) (sendOk : Nat → Bool) (sender : Peer)
    (currentHeight : Nat) : List Header → Nat → List Effect × Bool
  | [], _ => ([], true)
  | header :: rest, n =>
    if header.Height ≤ currentHeight then
      blockReqLoop headerHash sendOk sender currentHeight rest n
    else if sendOk n then
      let r := blockReqLoop headerHash sendOk sender currentHeight rest (n + 1)
      (Effect.SendMsg sender (Payload.BlockReq (headerHash header)) true :: r.1, r.2)
    else
      ([Effect.SendMsg sender (Payload.BlockReq (headerHash header)) false,
        Effect.logError], false)

/-- The body of `case msg := <-msgChan` (lines 103-162): the type switch on the payload.
`headerHash` is `common.HeaderHash` and `maxBlockHeaderNum` is
`message.MAX_BLOCK_HEADER_NUM`. -/
def handleMsg (headerHash : Header → Hash) (maxBlockHeaderNum : Nat) (env : Env)
    (msg : Message) : Step :=
  match msg.Payload with
  | Payload.Block block => ⟨[Effect.sendChan block], true, msg.Payload⟩
  | Payload.BlockReq hash =>
    match env.chain.GetBlockByHash hash with
    | none => ⟨[], false, msg.Payload⟩
    | some block =>
      if env.sendOk 0 then
        ⟨[Effect.SendMsg msg.From (Payload.Block block) true], true, msg.Payload⟩
      else
        ⟨[Effect.SendMsg msg.From (Payload.Block block) false, Effect.logError], true,
          msg.Payload⟩
  | Payload.BlockHeaders headers =>
    let currentBlock := env.chain.GetCurrentBlock
    let r := blockReqLoop headerHash env.sendOk msg.From currentBlock.Header.Height headers 0
    ⟨r.1, r.2, msg.Payload⟩
  | Payload.BlockHeaderReq len hashStart hashStop =>
    let len' := effectiveLen maxBlockHeaderNum len
    let payload' := Payload.BlockHeaderReq len' hashStart hashStop
    match env.chain.GetBlockByHash hashStop with
    | none => ⟨[Effect.logError], false, payload'⟩
    | some blockStop =>
      let r := headerLoop env.chain blockStop.Header.Height len' 1 []
      let logs := if r.2 then [Effect.logError] else []
      if env.sendOk 0 then
        ⟨logs ++ [Effect.SendMsg msg.From (Payload.BlockHeaders r.1) true], true, payload'⟩
      else
        ⟨logs ++ [Effect.SendMsg msg.From (Payload.BlockHeaders r.1) false, Effect.logError],
          true, payload'⟩
  | Payload.Other _ => ⟨[], true, msg.Payload⟩

/-- One outcome of the `select` of `recvHandler`: a message from `msgChan` (with the
surroundings it is handled in) or the closed `quitChan`. -/
inductive Select where
  | msg (env : Env) (m : Message)
  | quit

/-- A run of `recvHandler`: its effects, whether the function returned (`false`: it is
blocked in `select` with nothing to take), and the select outcomes it never took. -/
structure Run where
  effects : List Effect
  returned : Bool
  rest : List Select

/-- The loop of `recvHandler` (lines 100-166) over the outcomes of its `select`. -/
def recvHandler (headerHash : Header → Hash) (maxBlockHeaderNum : Nat) :
    List Select → Run
  | [] => ⟨[], false, []⟩
  | Select.quit :: rest => ⟨[], true, rest⟩
  | Select.msg env m :: rest =>
    let s := handleMsg headerHash maxBlockHeaderNum env m
    if s.running then
      let r := recvHandler headerHash maxBlockHeaderNum rest
      ⟨s.effects ++ r.effects, r.returned, r.rest⟩
    else
      ⟨s.effects, true, rest⟩

/-! ## reqHandler -/

/-- One outcome of the `select` of `reqHandler` (lines 86-93): a value on
`blockSyncChan`, a tick of the ten-second ticker, or the closed `quitChan`. -/
inductive Wake where
  | blockSync
  | timer
  | quit
deriving DecidableEq, Repr

/-- A call `p2p.Gather(peerFilter, msg)`: the peer-state predicate and the message. -/
structure GatherCall where
  peerFilter : Nat → Bool
  msg : Payload

/-- The `Gather` call of lines 78-85 for the block `GetCurrentBlock` returned.  The
composite literal leaves `HashStart` at its zero value. -/
def gatherRequest (currentBlock : Block) : GatherCall :=
  ⟨fun _ => true, Payload.BlockHeaderReq 1 0 currentBlock.HeaderHash⟩

/-- The loop of `reqHandler` (lines 77-94) over the outcomes of its `select`.  `chainAt n`
is the storage as it is when iteration `n` reads it; the loop is entered at iteration
`n`.  Returns the `Gather` calls in the order they are made. -/
def reqHandler (chainAt : Nat → BlockChain) : Nat → List Wake → List GatherCall
  | n, [] => [gatherRequest (chainAt n).GetCurrentBlock]
  | n, Wake.quit :: _ => [gatherRequest (chainAt n).GetCurrentBlock]
  | n, Wake.blockSync :: rest =>
    gatherRequest (chainAt n).GetCurrentBlock :: reqHandler chainAt (n + 1) rest
  | n, Wake.timer :: rest =>
    gatherRequest (chainAt n).GetCurrentBlock :: reqHandler chainAt (n + 1) rest

/-! ## Start and Stop -/

/-- The `types.EventType` constants that `Start` names. -/
inductive EventType where
  | EventBlockCommitted
  | EventBlockCommitFailed
  | EventBlockVerifyFailed
deriving DecidableEq, Repr

/-- A `types.Subscriber`, the handle `Subscribe` returns. -/
abbrev Subscriber := Nat

/-- A call received by the event center. -/
inductive EventCall where
  | Subscribe (eventType : EventType) (handle : Subscriber)
  | UnSubscribe (eventType : EventType) (subscriber : Subscriber)
deriving DecidableEq, Repr

/-- The `types.EventCenter` the syncer is given, seen through `Subscribe` and
`UnSubscribe`: the calls received so far, the handles registered under each event kind,
and the next handle to hand out. -/
structure EventCenter where
  calls : List EventCall
  registered : List (EventType × Subscriber)
  next : Subscriber
deriving DecidableEq, Repr

/-- The call `Subscribe(eventType, GatherNewBlockFunc)`: registers a new handle under
`eventType` and returns it. -/
def EventCenter.Subscribe (ec : EventCenter) (eventType : EventType) :
    Subscriber × EventCenter :=
  (ec.next,
   ⟨ec.calls ++ [EventCall.Subscribe eventType ec.next],
    ec.registered ++ [(eventType, ec.next)], ec.next + 1⟩)

/-- The call `UnSubscribe(eventType, subscriber)`: drops `subscriber` from the handles
registered under `eventType`; handles under other kinds stay. -/
def EventCenter.UnSubscribe (ec : EventCenter) (eventType : EventType)
    (subscriber : Subscriber) : EventCenter :=
  ⟨ec.calls ++ [EventCall.UnSubscribe eventType subscriber],
   ec.registered.filter (fun r => !decide (r = (eventType, subscriber))), ec.next⟩

/-- The fields of `BlockSyncer` that `Start` and `Stop` write: the `subscribers` map, as
its entries with distinct keys, and whether `quitChan` has been closed. -/
structure BlockSyncer where
  subscribers : List (EventType × Subscriber)
  quitClosed : Bool
deriving DecidableEq, Repr

/-- The map assignment `subscribers[key] = value`: replaces the entry of `key` when there
is one. -/
def mapAssign (subscribers : List (EventType × Subscriber)) (key : EventType)
    (value : Subscriber) : List (EventType × Subscriber) :=
  if subscribers.any (fun e => decide (e.1 = key)) then
    subscribers.map (fun e => if e.1 = key then (key, value) else e)
  else
    subscribers ++ [(key, value)]

/-- The builtin `delete(subscribers, key)`. -/
def mapDelete (subscribers : List (EventType × Subscriber)) (key : EventType) :
    List (EventType × Subscriber) :=
  subscribers.filter (fun e => !decide (e.1 = key))

/-- The syncer `NewBlockSyncer` returns when storage opens (lines 41-49): an empty
`subscribers` map and an open `quitChan`. -/
def NewBlockSyncer : BlockSyncer := ⟨[], false⟩

/-- The three subscriptions of `Start` (lines 57-59), each stored under the key written
on the left of its assignment.  The two `go` statements before them start the loops
`reqHandler` and `recvHandler`, which are embedded on their own above. -/
def Start (syncer : BlockSyncer) (ec : EventCenter) : BlockSyncer × EventCenter :=
  let r1 := ec.Subscribe EventType.EventBlockCommitFailed
  let m1 := mapAssign syncer.subscribers EventType.EventBlockCommitFailed r1.1
  let r2 := r1.2.Subscribe EventType.EventBlockVerifyFailed
  let m2 := mapAssign m1 EventType.EventBlockVerifyFailed r2.1
  let r3 := r2.2.Subscribe EventType.EventBlockCommitted
  let m3 := mapAssign m2 EventType.EventBlockCommitFailed r3.1
  (⟨m3, syncer.quitClosed⟩, r3.2)

/-- The `range` loop of `Stop` (lines 68-71) over the map entries still to be visited:
each entry is deleted from the map and unsubscribed under its key.  Go visits the entries
in no fixed order; the entries have distinct keys, so every order ends in the same map
and the same registrations. -/
def stopLoop : List (EventType × Subscriber) → List (EventType × Subscriber) →
    EventCenter → List (EventType × Subscriber) × EventCenter
  | [], subscribers, ec => (subscribers, ec)
  | (eventType, subscriber) :: rest, subscribers, ec =>
    stopLoop rest (mapDelete subscribers eventType) (ec.UnSubscribe eventType subscriber)

/-- `Stop` (lines 64-72): closes `quitChan`, then runs the loop over `subscribers`. -/
def Stop (syncer : BlockSyncer) (ec : EventCenter) : BlockSyncer × EventCenter :=
  let r := stopLoop syncer.subscribers syncer.subscribers ec
  (⟨r.1, true⟩, r.2)

/-! ## Observations on effect lists -/

/-- The `SendMsg` calls among the effects, failed ones included: target and message. -/
def sentMsgs : List Effect → List (Peer × Payload)
  | [] => []
  | Effect.SendMsg peer payload _ :: rest => (peer, payload) :: sentMsgs rest
  | Effect.sendChan _ :: rest => sentMsgs rest
  | Effect.logError :: rest => sentMsgs rest

/-- The blocks put on `sendChan`, in order. -/
def forwarded : List Effect → List Block
  | [] => []
  | Effect.sendChan block :: rest => block :: forwarded rest
  | Effect.SendMsg _ _ _ :: rest => forwarded rest
  | Effect.logError :: rest => forwarded rest

/-- The blocks of the `Block` messages among select outcomes, in arrival order. -/
def inboundBlocks : List Select → List Block
  | [] => []
  | Select.msg _ ⟨_, Payload.Block block⟩ :: rest => block :: inboundBlocks rest
  | Select.msg _ ⟨_, Payload.BlockReq _⟩ :: rest => inboundBlocks rest
  | Select.msg _ ⟨_, Payload.BlockHeaders _⟩ :: rest => inboundBlocks rest
  | Select.msg _ ⟨_, Payload.BlockHeaderReq _ _ _⟩ :: rest => inboundBlocks rest
  | Select.msg _ ⟨_, Payload.Other _⟩ :: rest => inboundBlocks rest
  | Select.quit :: rest => inboundBlocks rest

/-- The effects of the `BlockHeaderReq` case once the anchor is found: the log of a
`break`, the one `SendMsg`, and the log of its error. -/
def headerReqEffects (env : Env) (sender : Peer) (anchor count : Nat) : List Effect :=
  (if (headerLoop env.chain anchor count 1 []).2 then [Effect.logError] else []) ++
    (Effect.SendMsg sender (Payload.BlockHeaders (headerLoop env.chain anchor count 1 []).1)
        (env.sendOk 0) ::
      (if env.sendOk 0 then [] else [Effect.logError]))

/-- The number of times the `select` of `reqHandler` takes a retry signal or a timer tick
before it takes the closed `quitChan` (or is left waiting). -/
def wakeups : List Wake → Nat
  | [] => 0
  | Wake.quit :: _ => 0
  | Wake.blockSync :: rest => wakeups rest + 1
  | Wake.timer :: rest => wakeups rest + 1

/-! ## Sample data for the concrete scenarios -/

/-- A header at the given height. -/
def sampleHeader (height : Nat) : Header := ⟨height, 0⟩

/-- A header hash function for the scenarios: distinct heights get distinct hashes. -/
def sampleHash (header : Header) : Hash := header.Height + 1000

/-- The block at the given height of the sample chain. -/
def sampleBlock (height : Nat) : Block := ⟨sampleHeader height, height + 1000, 0⟩

/-- Storage holding the blocks at heights `0 .. top`, with head `top`. -/
def sampleChain (top : Nat) : BlockChain where
  GetCurrentBlock := sampleBlock top
  GetBlockByHash := fun hash =>
    if 1000 ≤ hash ∧ hash ≤ 1000 + top then some (sampleBlock (hash - 1000)) else none
  GetBlockByHeight := fun height =>
    if height ≤ top then some (sampleBlock height) else none

/-- Surroundings in which every send succeeds. -/
def sampleEnv (top : Nat) : Env := ⟨sampleChain top, fun _ => true⟩

/-- Surroundings in which every send returns an error. -/
def brokenEnv (top : Nat) : Env := ⟨sampleChain top, fun _ => false⟩

/-- An event center with nothing registered. -/
def emptyCenter : EventCenter := ⟨[], [], 0⟩

/-! ## Lemmas on the observations -/

theorem sentMsgs_append (xs ys : List Effect) :
    sentMsgs (xs ++ ys) = sentMsgs xs ++ sentMsgs ys := by
  induction xs with
  | nil => rfl
  | cons x xs ih => cases x <;> simp [sentMsgs, ih]

theorem forwarded_append (xs ys : List Effect) :
    forwarded (xs ++ ys) = forwarded xs ++ forwarded ys := by
  induction xs with
  | nil => rfl
  | cons x xs ih => cases x <;> simp [forwarded, ih]

theorem inboundBlocks_append (xs ys : List Select) :
    inboundBlocks (xs ++ ys) = inboundBlocks xs ++ inboundBlocks ys := by
  induction xs with
  | nil => rfl
  | cons x xs ih =>
    rcases x with ⟨env, ⟨sender, payload⟩⟩ | _
    · cases payload <;> simp [inboundBlocks, ih]
    · simp [inboundBlocks, ih]

/-- The follow-up loop puts nothing on `sendChan`. -/
theorem forwarded_blockReqLoop (headerHash : Header → Hash) (sendOk : Nat → Bool)
    (sender : Peer) (currentHeight : Nat) (headers : List Header) (n : Nat) :
    forwarded (blockReqLoop headerHash sendOk sender currentHeight headers n).1 = [] := by
  induction headers generalizing n with
  | nil => rfl
  | cons header rest ih =>
    unfold blockReqLoop
    split
    · exact ih n
    · split
      · simpa [forwarded] using ih (n + 1)
      · rfl

theorem handleMsg_headerReq_found (headerHash : Header → Hash) (maxBlockHeaderNum : Nat)
    (env : Env) (sender : Peer) (len : Nat) (hashStart hashStop : Hash) (blockStop : Block)
    (hstop : env.chain.GetBlockByHash hashStop = some blockStop) :
    handleMsg headerHash maxBlockHeaderNum env
        ⟨sender, Payload.BlockHeaderReq len hashStart hashStop⟩
      = ⟨headerReqEffects env sender blockStop.Header.Height
            (effectiveLen maxBlockHeaderNum len),
          true,
          Payload.BlockHeaderReq (effectiveLen maxBlockHeaderNum len) hashStart hashStop⟩ := by
  simp only [handleMsg, hstop, headerReqEffects]
  cases env.sendOk 0 <;> simp

theorem handleMsg_headerReq_missing (headerHash : Header → Hash) (maxBlockHeaderNum : Nat)
    (env : Env) (sender : Peer) (len : Nat) (hashStart hashStop : Hash)
    (hstop : env.chain.GetBlockByHash hashStop = none) :
    handleMsg headerHash maxBlockHeaderNum env
        ⟨sender, Payload.BlockHeaderReq len hashStart hashStop⟩
      = ⟨[Effect.logError], false,
          Payload.BlockHeaderReq (effectiveLen maxBlockHeaderNum len) hashStart hashStop⟩ := by
  simp only [handleMsg, hstop]

theorem handleMsg_blockReq_found (headerHash : Header → Hash) (maxBlockHeaderNum : Nat)
    (env : Env) (sender : Peer) (hash : Hash) (block : Block)
    (hfound : env.chain.GetBlockByHash hash = some block) :
    handleMsg headerHash maxBlockHeaderNum env ⟨sender, Payload.BlockReq hash⟩
      = ⟨Effect.SendMsg sender (Payload.Block block) (env.sendOk 0) ::
            (if env.sendOk 0 then [] else [Effect.logError]),
          true, Payload.BlockReq hash⟩ := by
  simp only [handleMsg, hfound]
  cases env.sendOk 0 <;> simp

theorem handleMsg_blockReq_missing (headerHash : Header → Hash) (maxBlockHeaderNum : Nat)
    (env : Env) (sender : Peer) (hash : Hash)
    (hmiss : env.chain.GetBlockByHash hash = none) :
    handleMsg headerHash maxBlockHeaderNum env ⟨sender, Payload.BlockReq hash⟩
      = ⟨[], false, Payload.BlockReq hash⟩ := by
  simp only [handleMsg, hmiss]

theorem forwarded_headerReqEffects (env : Env) (sender : Peer) (anchor count : Nat) :
    forwarded (headerReqEffects env sender anchor count) = [] := by
  unfold headerReqEffects
  rw [forwarded_append]
  cases (headerLoop env.chain anchor count 1 []).2 <;> cases env.sendOk 0 <;> rfl

theorem sentMsgs_headerReqEffects (env : Env) (sender : Peer) (anchor count : Nat) :
    sentMsgs (headerReqEffects env sender anchor count)
      = [(sender, Payload.BlockHeaders (headerLoop env.chain anchor count 1 []).1)] := by
  unfold headerReqEffects
  rw [sentMsgs_append]
  cases (headerLoop env.chain anchor count 1 []).2 <;> cases env.sendOk 0 <;> rfl

/-- What one message puts on `sendChan`: its block when it is a `Block` message, nothing
otherwise. -/
theorem forwarded_handleMsg (headerHash : Header → Hash) (maxBlockHeaderNum : Nat)
    (env : Env) (m : Message) :
    forwarded (handleMsg headerHash maxBlockHeaderNum env m).effects
      = inboundBlocks [Select.msg env m] := by
  rcases m with ⟨sender, payload⟩
  cases payload with
  | Block block => rfl
  | BlockReq hash =>
    cases hfound : env.chain.GetBlockByHash hash with
    | none => rw [handleMsg_blockReq_missing _ _ _ _ _ hfound]; rfl
    | some block =>
      rw [handleMsg_blockReq_found _ _ _ _ _ _ hfound]
      cases env.sendOk 0 <;> rfl
  | BlockHeaders headers =>
    simp only [handleMsg, inboundBlocks]
    exact forwarded_blockReqLoop _ _ _ _ _ _
  | BlockHeaderReq len hashStart hashStop =>
    cases hstop : env.chain.GetBlockByHash hashStop with
    | none => rw [handleMsg_headerReq_missing _ _ _ _ _ _ _ hstop]; rfl
    | some blockStop =>
      rw [handleMsg_headerReq_found _ _ _ _ _ _ _ _ hstop]
      exact forwarded_headerReqEffects _ _ _ _
  | Other kind => rfl

/-- The loop consumes a prefix of the select outcomes, and what it puts on `sendChan` is
the blocks of the `Block` messages of that prefix. -/
theorem recvHandler_forwarded (headerHash : Header → Hash) (maxBlockHeaderNum : Nat)
    (inbound : List Select) :
    ∃ handled, inbound = handled ++ (recvHandler headerHash maxBlockHeaderNum inbound).rest ∧
      forwarded (recvHandler headerHash maxBlockHeaderNum inbound).effects
        = inboundBlocks handled := by
  induction inbound with
  | nil => exact ⟨[], rfl, rfl⟩
  | cons ev rest ih =>
    cases ev with
    | quit => exact ⟨[Select.quit], rfl, rfl⟩
    | msg env m =>
      obtain ⟨handled, hsplit, hfw⟩ := ih
      have hone := forwarded_handleMsg headerHash maxBlockHeaderNum env m
      cases hrun : (handleMsg headerHash maxBlockHeaderNum env m).running with
      | false =>
        refine ⟨[Select.msg env m], ?_, ?_⟩
        · simp [recvHandler, hrun]
        · simp [recvHandler, hrun, hone]
      | true =>
        refine ⟨Select.msg env m :: handled, ?_, ?_⟩
        · simp only [recvHandler, hrun, if_true, List.cons_append]
          exact congrArg _ hsplit
        · simp only [recvHandler, hrun, if_true, forwarded_append, hone, hfw]
          exact (inboundBlocks_append [Select.msg env m] handled).symm

/-- A run that took every select outcome it was given put on `sendChan` the blocks of all
the `Block` messages among them, in arrival order. -/
theorem recvHandler_forwarded_all (headerHash : Header → Hash) (maxBlockHeaderNum : Nat)
    (inbound : List Select)
    (hall : (recvHandler headerHash maxBlockHeaderNum inbound).rest = []) :
    forwarded (recvHandler headerHash maxBlockHeaderNum inbound).effects
      = inboundBlocks inbound := by
  obtain ⟨handled, hsplit, hfw⟩ := recvHandler_forwarded headerHash maxBlockHeaderNum inbound
  rw [hall, List.append_nil] at hsplit
  rw [hfw, ← hsplit]

/-- A `Block` message has the single effect of putting its block on `sendChan`, and a
message of any other kind puts nothing on `sendChan`. -/
theorem handleMsg_forwards_block_only (headerHash : Header → Hash)
    (maxBlockHeaderNum : Nat) :
    (∀ (env : Env) (sender : Peer) (block : Block),
      (handleMsg headerHash maxBlockHeaderNum env ⟨sender, Payload.Block block⟩).effects
        = [Effect.sendChan block]) ∧
    (∀ (env : Env) (m : Message),
      forwarded (handleMsg headerHash maxBlockHeaderNum env m).effects
        = match m.Payload with
          | Payload.Block block => [block]
          | _ => []) := by
  refine ⟨fun _ _ _ => rfl, ?_⟩
  intro env m
  rw [forwarded_handleMsg]
  rcases m with ⟨sender, payload⟩
  cases payload <;> rfl

/-- A message whose handling leaves the loop running is followed by the handling of the
select outcomes after it. -/
theorem recvHandler_cons_running (headerHash : Header → Hash) (maxBlockHeaderNum : Nat)
    (env : Env) (m : Message) (rest : List Select)
    (hrun : (handleMsg headerHash maxBlockHeaderNum env m).running = true) :
    recvHandler headerHash maxBlockHeaderNum (Select.msg env m :: rest)
      = ⟨(handleMsg headerHash maxBlockHeaderNum env m).effects
            ++ (recvHandler headerHash maxBlockHeaderNum rest).effects,
          (recvHandler headerHash maxBlockHeaderNum rest).returned,
          (recvHandler headerHash maxBlockHeaderNum rest).rest⟩ := by
  simp only [recvHandler, hrun, if_true]

/-- C8: a `BlockReq` whose `HeaderHash` storage resolves to `block` makes the dispatcher
call `SendMsg` exactly once, with a `Block` message carrying `block`, addressed to
`msg.From`; nothing goes to `sendChan`; a failed send adds only a log entry; and in
either case the loop goes on with the select outcomes that follow. -/
theorem blockReq_found_sends_block_to_requester (headerHash : Header → Hash)
    (maxBlockHeaderNum : Nat) (env : Env) (sender : Peer) (hash : Hash) (block : Block)
    (rest : List Select) (hfound : env.chain.GetBlockByHash hash = some block) :
    sentMsgs (handleMsg headerHash maxBlockHeaderNum env
        ⟨sender, Payload.BlockReq hash⟩).effects = [(sender, Payload.Block block)] ∧
    (handleMsg headerHash maxBlockHeaderNum env ⟨sender, Payload.BlockReq hash⟩).effects
      = Effect.SendMsg sender (Payload.Block block) (env.sendOk 0) ::
          (if env.sendOk 0 then [] else [Effect.logError]) ∧
    (handleMsg headerHash maxBlockHeaderNum env ⟨sender, Payload.BlockReq hash⟩).running
      = true ∧
    recvHandler headerHash maxBlockHeaderNum
        (Select.msg env ⟨sender, Payload.BlockReq hash⟩ :: rest)
      = ⟨(handleMsg headerHash maxBlockHeaderNum env
              ⟨sender, Payload.BlockReq hash⟩).effects
            ++ (recvHandler headerHash maxBlockHeaderNum rest).effects,
          (recvHandler headerHash maxBlockHeaderNum rest).returned,
          (recvHandler headerHash maxBlockHeaderNum rest).rest⟩ := by
  have hstep := handleMsg_blockReq_found headerHash maxBlockHeaderNum env sender hash block
    hfound
  refine ⟨?_, ?_, ?_, ?_⟩
  · rw [hstep]
    cases env.sendOk 0 <;> rfl
  · rw [hstep]
  · rw [hstep]
  · exact recvHandler_cons_running _ _ _ _ _ (by rw [hstep])

/-- C8 at a concrete request: peer 7 asks for the block of hash 1050, which the sample
storage holds at height 50. -/
theorem blockReq_found_sends_block_to_requester_witness :
    (sampleEnv 100).chain.GetBlockByHash 1050 = some (sampleBlock 50) ∧
    sentMsgs (handleMsg sampleHash 100 (sampleEnv 100)
        ⟨7, Payload.BlockReq 1050⟩).effects = [(7, Payload.Block (sampleBlock 50))] :=
  ⟨by decide,
   (blockReq_found_sends_block_to_requester sampleHash 100 (sampleEnv 100) 7 1050
      (sampleBlock 50) [] (by decide)).1⟩

/-- C3 on the code: a `BlockReq` for hash 5, which the sample storage does not hold,
produces no effect and makes `recvHandler` return, so the `Block` message that follows is
never taken; the same `Block` message arriving first is forwarded.  A `BlockHeaderReq`
whose anchor 5 is missing logs, sends nothing, and returns in the same way. -/
theorem recvHandler_returns_on_failed_hash_lookup :
    (recvHandler sampleHash 100
        [Select.msg (sampleEnv 100) ⟨7, Payload.BlockReq 5⟩,
         Select.msg (sampleEnv 100) ⟨8, Payload.Block (sampleBlock 101)⟩]).effects = [] ∧
    (recvHandler sampleHash 100
        [Select.msg (sampleEnv 100) ⟨7, Payload.BlockReq 5⟩,
         Select.msg (sampleEnv 100) ⟨8, Payload.Block (sampleBlock 101)⟩]).returned = true ∧
    (recvHandler sampleHash 100
        [Select.msg (sampleEnv 100) ⟨7, Payload.BlockReq 5⟩,
         Select.msg (sampleEnv 100) ⟨8, Payload.Block (sampleBlock 101)⟩]).rest.length = 1 ∧
    (recvHandler sampleHash 100
        [Select.msg (sampleEnv 100) ⟨8, Payload.Block (sampleBlock 101)⟩]).effects
      = [Effect.sendChan (sampleBlock 101)] ∧
    (recvHandler sampleHash 100
        [Select.msg (sampleEnv 100) ⟨7, Payload.BlockHeaderReq 5 0 5⟩,
         Select.msg (sampleEnv 100) ⟨8, Payload.Block (sampleBlock 101)⟩]).effects
      = [Effect.logError] ∧
    (recvHandler sampleHash 100
        [Select.msg (sampleEnv 100) ⟨7, Payload.BlockHeaderReq 5 0 5⟩,
         Select.msg (sampleEnv 100) ⟨8, Payload.Block (sampleBlock 101)⟩]).returned = true ∧
    (recvHandler sampleHash 100
        [Select.msg (sampleEnv 100) ⟨7, Payload.BlockHeaderReq 5 0 5⟩,
         Select.msg (sampleEnv 100) ⟨8, Payload.Block (sampleBlock 101)⟩]).rest.length = 1 := by
  refine ⟨?_, ?_, ?_, ?_, ?_, ?_, ?_⟩ <;> decide

/-- C4 on the code: with local height 100 and a peer whose sends fail, the response with
headers 101 and 102 leads to one failed `SendMsg` (for 101) and a log entry, no
`SendMsg` for 102, and `recvHandler` returns: the `Block` message that follows is never
taken. -/
theorem recvHandler_returns_on_failed_follow_up_send :
    (recvHandler sampleHash 100
        [Select.msg (brokenEnv 100)
            ⟨7, Payload.BlockHeaders [sampleHeader 101, sampleHeader 102]⟩,
         Select.msg (sampleEnv 100) ⟨8, Payload.Block (sampleBlock 101)⟩]).effects
      = [Effect.SendMsg 7 (Payload.BlockReq 1101) false, Effect.logError] ∧
    (recvHandler sampleHash 100
        [Select.msg (brokenEnv 100)
            ⟨7, Payload.BlockHeaders [sampleHeader 101, sampleHeader 102]⟩,
         Select.msg (sampleEnv 100) ⟨8, Payload.Block (sampleBlock 101)⟩]).returned = true ∧
    (recvHandler sampleHash 100
        [Select.msg (brokenEnv 100)
            ⟨7, Payload.BlockHeaders [sampleHeader 101, sampleHeader 102]⟩,
         Select.msg (sampleEnv 100) ⟨8, Payload.Block (sampleBlock 101)⟩]).rest.length = 1 := by
  refine ⟨?_, ?_, ?_⟩ <;> decide

/-- C5 on the code: `Start` then `Stop` on a new syncer and an event center with nothing
registered.  The `subscribers` map ends empty, but `Stop` issued only two `UnSubscribe`
calls: handle 2, created under `EventBlockCommitted`, is unsubscribed under
`EventBlockCommitFailed`, and handle 0, created under `EventBlockCommitFailed`, is never
unsubscribed.  Both are still registered afterwards. -/
theorem start_stop_leaves_handles_registered :
    (Stop (Start NewBlockSyncer emptyCenter).1 (Start NewBlockSyncer emptyCenter).2).1
      = ⟨[], true⟩ ∧
    (Stop (Start NewBlockSyncer emptyCenter).1
        (Start NewBlockSyncer emptyCenter).2).2.calls
      = [EventCall.Subscribe EventType.EventBlockCommitFailed 0,
         EventCall.Subscribe EventType.EventBlockVerifyFailed 1,
         EventCall.Subscribe EventType.EventBlockCommitted 2,
         EventCall.UnSubscribe EventType.EventBlockCommitFailed 2,
         EventCall.UnSubscribe EventType.EventBlockVerifyFailed 1] ∧
    (Stop (Start NewBlockSyncer emptyCenter).1
        (Start NewBlockSyncer emptyCenter).2).2.registered
      = [(EventType.EventBlockCommitFailed, 0), (EventType.EventBlockCommitted, 2)] := by
  refine ⟨?_, ?_, ?_⟩ <;> decide

/-! ## The request scheduler -/

/-- The loop entered at iteration `n` makes one `Gather` call per iteration, each built
from the storage of its own iteration. -/
theorem reqHandler_from (chainAt : Nat → BlockChain) (wakes : List Wake) (n : Nat) :
    reqHandler chainAt n wakes
      = (List.range (wakeups wakes + 1)).map
          (fun j => gatherRequest (chainAt (n + j)).GetCurrentBlock) := by
  induction wakes generalizing n with
  | nil => simp [reqHandler, wakeups, List.range_succ]
  | cons w rest ih =>
    cases w with
    | quit => simp [reqHandler, wakeups, List.range_succ]
    | blockSync =>
      rw [reqHandler, wakeups, ih (n + 1), List.range_succ_eq_map (wakeups rest + 1)]
      simp [Function.comp_def, Nat.add_assoc, Nat.add_comm 1]
    | timer =>
      rw [reqHandler, wakeups, ih (n + 1), List.range_succ_eq_map (wakeups rest + 1)]
      simp [Function.comp_def, Nat.add_assoc, Nat.add_comm 1]

/-- C7: the `Gather` calls of `reqHandler` are one for its first iteration and one more
per retry signal or timer tick taken before `quitChan`; the call of iteration `n` is
built from the block `GetCurrentBlock` returns from the storage of iteration `n`; and
every such call carries a `BlockHeaderReq` with `Len = 1` and `HashStop` the
`HeaderHash` of that block, with a predicate that accepts every peer state. -/
theorem reqHandler_requests_anchor_on_current_block (chainAt : Nat → BlockChain)
    (wakes : List Wake) :
    reqHandler chainAt 0 wakes
      = (List.range (wakeups wakes + 1)).map
          (fun n => gatherRequest (chainAt n).GetCurrentBlock) ∧
    (∀ (currentBlock : Block),
      (gatherRequest currentBlock).msg
        = Payload.BlockHeaderReq 1 0 currentBlock.HeaderHash) ∧
    (∀ (currentBlock : Block) (peerState : Nat),
      (gatherRequest currentBlock).peerFilter peerState = true) := by
  refine ⟨?_, fun _ => rfl, fun _ _ => rfl⟩
  simpa using reqHandler_from chainAt wakes 0

/-! ## Serving header-range requests -/

theorem effectiveLen_zero (maxBlockHeaderNum : Nat) :
    effectiveLen maxBlockHeaderNum 0 = maxBlockHeaderNum := by
  simp [effectiveLen]

theorem effectiveLen_pos (maxBlockHeaderNum len : Nat) (hlen : 0 < len) :
    effectiveLen maxBlockHeaderNum len = len := by
  have : ¬ len ≤ 0 := by omega
  simp [effectiveLen, this]

theorem effectiveLen_idem (maxBlockHeaderNum len : Nat) :
    effectiveLen maxBlockHeaderNum (effectiveLen maxBlockHeaderNum len)
      = effectiveLen maxBlockHeaderNum len := by
  by_cases hlen : len ≤ 0
  · by_cases hmax : maxBlockHeaderNum ≤ 0 <;> simp [effectiveLen, hlen, hmax]
  · simp [effectiveLen, hlen]

/-- Without overflow the height the loop asks for is the plain sum. -/
theorem heightAfter_of_lt (anchor i : Nat) (hfit : anchor + i < uint64Size) :
    heightAfter anchor i = anchor + i :=
  Nat.mod_eq_of_lt hfit

/-- What the height loop computes: it appends to `blockHeaders` the headers of the blocks
found at the `m` heights following its entry point, where `m` is either the full number
of iterations or stops at the first height storage does not hold. -/
theorem headerLoop_spec (chain : BlockChain) (anchor : Nat) (todo i : Nat)
    (blockHeaders : List Header) :
    ∃ (m : Nat) (found : List Header),
      headerLoop chain anchor todo i blockHeaders = (blockHeaders ++ found, decide (m < todo)) ∧
      m ≤ todo ∧ found.length = m ∧
      (∀ j, j < m → ∃ block,
        chain.GetBlockByHeight (heightAfter anchor (i + j)) = some block ∧
        found[j]? = some block.Header) ∧
      (m < todo → chain.GetBlockByHeight (heightAfter anchor (i + m)) = none) := by
  induction todo generalizing i blockHeaders with
  | zero => exact ⟨0, [], by simp [headerLoop], le_refl _, rfl, by simp, by simp⟩
  | succ todo ih =>
    cases hget : chain.GetBlockByHeight (heightAfter anchor i) with
    | none =>
      refine ⟨0, [], ?_, Nat.zero_le _, rfl, by simp, fun _ => by simpa using hget⟩
      simp [headerLoop, hget]
    | some block =>
      obtain ⟨m, found, hrun, hle, hlen, hget', hstop⟩ :=
        ih (i + 1) (blockHeaders ++ [block.Header])
      refine ⟨m + 1, block.Header :: found, ?_, by omega, by simp [hlen], ?_, ?_⟩
      · simp [headerLoop, hget, hrun]
      · intro j hj
        cases j with
        | zero => exact ⟨block, by simpa using hget, by simp⟩
        | succ j =>
          obtain ⟨b, hb, hfound⟩ := hget' j (by omega)
          refine ⟨b, ?_, by simpa using hfound⟩
          rw [← hb]
          congr 2
          omega
      · intro hlt
        have := hstop (by omega)
        rw [← this]
        congr 2
        omega

theorem headerLoop_length_le (chain : BlockChain) (anchor todo i : Nat) :
    (headerLoop chain anchor todo i []).1.length ≤ todo := by
  obtain ⟨m, found, hrun, hle, hlen, _, _⟩ := headerLoop_spec chain anchor todo i []
  rw [hrun]
  simpa [hlen] using hle

/-- C1: when storage resolves `HashStop` to `blockStop` (height `a`), the dispatcher
calls `SendMsg` exactly once, with a `BlockHeaders` message addressed to `msg.From`, and
goes on with its loop.  The `Headers` of that message are, in order, the headers of the
blocks `GetBlockByHeight` returns for the heights `a+1, ..., a+m` (as `uint64` sums),
where `m` is at most the effective count and is the largest such number for which every
one of those lookups succeeds.  While `a + i` fits in a `uint64` the height asked for is
the plain sum `a + i`. -/
theorem headerReq_sends_headers_above_anchor (headerHash : Header → Hash)
    (maxBlockHeaderNum : Nat) (env : Env) (sender : Peer) (len : Nat)
    (hashStart hashStop : Hash) (blockStop : Block)
    (hstop : env.chain.GetBlockByHash hashStop = some blockStop) :
    ∃ (m : Nat) (headers : List Header),
      sentMsgs (handleMsg headerHash maxBlockHeaderNum env
          ⟨sender, Payload.BlockHeaderReq len hashStart hashStop⟩).effects
        = [(sender, Payload.BlockHeaders headers)] ∧
      (handleMsg headerHash maxBlockHeaderNum env
          ⟨sender, Payload.BlockHeaderReq len hashStart hashStop⟩).running = true ∧
      headers.length = m ∧
      m ≤ effectiveLen maxBlockHeaderNum len ∧
      (∀ j, j < m → ∃ block,
        env.chain.GetBlockByHeight (heightAfter blockStop.Header.Height (j + 1))
          = some block ∧
        headers[j]? = some block.Header) ∧
      (∀ m', m' ≤ effectiveLen maxBlockHeaderNum len →
        (∀ j, j < m' →
          (env.chain.GetBlockByHeight
            (heightAfter blockStop.Header.Height (j + 1))).isSome = true) →
        m' ≤ m) ∧
      (∀ i, blockStop.Header.Height + i < uint64Size →
        heightAfter blockStop.Header.Height i = blockStop.Header.Height + i) := by
  obtain ⟨m, found, hrun, hle, hlen, hget, hend⟩ :=
    headerLoop_spec env.chain blockStop.Header.Height
      (effectiveLen maxBlockHeaderNum len) 1 []
  refine ⟨m, found, ?_, ?_, hlen, hle, ?_, ?_, fun i hi => heightAfter_of_lt _ _ hi⟩
  · rw [handleMsg_headerReq_found _ _ _ _ _ _ _ _ hstop, sentMsgs_headerReqEffects, hrun]
    simp
  · rw [handleMsg_headerReq_found _ _ _ _ _ _ _ _ hstop]
  · intro j hj
    obtain ⟨block, hb, hfound⟩ := hget j hj
    exact ⟨block, by rw [← hb, Nat.add_comm], hfound⟩
  · intro m' hm' hall
    by_contra hgt
    have hlt : m < effectiveLen maxBlockHeaderNum len := by omega
    have hsome := hall m (by omega)
    rw [Nat.add_comm, hend hlt] at hsome
    simp at hsome

/-- C1 at the scenario of the specification: count 5, anchor the block of height 50,
storage holding heights 0 to 52.  The response carries the headers of heights 51 and 52
only. -/
theorem headerReq_sends_headers_above_anchor_witness :
    (sampleEnv 52).chain.GetBlockByHash 1050 = some (sampleBlock 50) ∧
    (∃ (m : Nat) (headers : List Header),
      sentMsgs (handleMsg sampleHash 100 (sampleEnv 52)
          ⟨7, Payload.BlockHeaderReq 5 0 1050⟩).effects
        = [(7, Payload.BlockHeaders headers)] ∧
      (handleMsg sampleHash 100 (sampleEnv 52)
          ⟨7, Payload.BlockHeaderReq 5 0 1050⟩).running = true ∧
      headers.length = m ∧
      m ≤ effectiveLen 100 5 ∧
      (∀ j, j < m → ∃ block,
        (sampleEnv 52).chain.GetBlockByHeight
            (heightAfter (sampleBlock 50).Header.Height (j + 1)) = some block ∧
        headers[j]? = some block.Header) ∧
      (∀ m', m' ≤ effectiveLen 100 5 →
        (∀ j, j < m' →
          ((sampleEnv 52).chain.GetBlockByHeight
            (heightAfter (sampleBlock 50).Header.Height (j + 1))).isSome = true) →
        m' ≤ m) ∧
      (∀ i, (sampleBlock 50).Header.Height + i < uint64Size →
        heightAfter (sampleBlock 50).Header.Height i
          = (sampleBlock 50).Header.Height + i)) ∧
    sentMsgs (handleMsg sampleHash 100 (sampleEnv 52)
        ⟨7, Payload.BlockHeaderReq 5 0 1050⟩).effects
      = [(7, Payload.BlockHeaders [sampleHeader 51, sampleHeader 52])] :=
  ⟨by decide,
   headerReq_sends_headers_above_anchor sampleHash 100 (sampleEnv 52) 7 5 0 1050
     (sampleBlock 50) (by decide),
   by decide⟩

/-- C6: a `BlockHeaderReq` with `Len = 0` is handled with effective count
`MAX_BLOCK_HEADER_NUM`: `Len` is rewritten to it, and when the anchor is found the
response is what the height loop yields in `MAX_BLOCK_HEADER_NUM` iterations.  A request
with `Len = k > 0` never leads to a `BlockHeaders` message with more than `k` headers. -/
theorem headerReq_count_zero_is_max_and_count_bounds_response (headerHash : Header → Hash)
    (maxBlockHeaderNum : Nat) (env : Env) (sender : Peer) (hashStart hashStop : Hash) :
    effectiveLen maxBlockHeaderNum 0 = maxBlockHeaderNum ∧
    (handleMsg headerHash maxBlockHeaderNum env
        ⟨sender, Payload.BlockHeaderReq 0 hashStart hashStop⟩).payload
      = Payload.BlockHeaderReq maxBlockHeaderNum hashStart hashStop ∧
    (∀ blockStop, env.chain.GetBlockByHash hashStop = some blockStop →
      sentMsgs (handleMsg headerHash maxBlockHeaderNum env
          ⟨sender, Payload.BlockHeaderReq 0 hashStart hashStop⟩).effects
        = [(sender, Payload.BlockHeaders
            (headerLoop env.chain blockStop.Header.Height maxBlockHeaderNum 1 []).1)]) ∧
    (∀ k, 0 < k → ∀ (peer : Peer) (headers : List Header),
      (peer, Payload.BlockHeaders headers) ∈
        sentMsgs (handleMsg headerHash maxBlockHeaderNum env
          ⟨sender, Payload.BlockHeaderReq k hashStart hashStop⟩).effects →
      headers.length ≤ k) := by
  refine ⟨effectiveLen_zero _, ?_, ?_, ?_⟩
  · cases hstop : env.chain.GetBlockByHash hashStop with
    | none => rw [handleMsg_headerReq_missing _ _ _ _ _ _ _ hstop, effectiveLen_zero]
    | some blockStop =>
      rw [handleMsg_headerReq_found _ _ _ _ _ _ _ _ hstop, effectiveLen_zero]
  · intro blockStop hstop
    rw [handleMsg_headerReq_found _ _ _ _ _ _ _ _ hstop, sentMsgs_headerReqEffects,
      effectiveLen_zero]
  · intro k hk peer headers hmem
    cases hstop : env.chain.GetBlockByHash hashStop with
    | none =>
      rw [handleMsg_headerReq_missing _ _ _ _ _ _ _ hstop] at hmem
      simp [sentMsgs] at hmem
    | some blockStop =>
      rw [handleMsg_headerReq_found _ _ _ _ _ _ _ _ hstop, sentMsgs_headerReqEffects,
        effectiveLen_pos _ _ hk] at hmem
      simp only [List.mem_singleton, Prod.mk.injEq, Payload.BlockHeaders.injEq] at hmem
      rw [hmem.2]
      exact headerLoop_length_le _ _ _ _

/-- C6 at a concrete request: with storage through height 200, count 3 from the anchor
of height 50 is answered with the three headers of heights 51 to 53. -/
theorem headerReq_count_zero_is_max_and_count_bounds_response_witness :
    (0 < 3 ∧
      (7, Payload.BlockHeaders [sampleHeader 51, sampleHeader 52, sampleHeader 53]) ∈
        sentMsgs (handleMsg sampleHash 100 (sampleEnv 200)
          ⟨7, Payload.BlockHeaderReq 3 0 1050⟩).effects) ∧
    [sampleHeader 51, sampleHeader 52, sampleHeader 53].length ≤ 3 :=
  ⟨⟨by decide, by decide⟩,
   (headerReq_count_zero_is_max_and_count_bounds_response sampleHash 100 (sampleEnv 200) 7
      0 1050).2.2.2 3 (by decide) 7 [sampleHeader 51, sampleHeader 52, sampleHeader 53]
      (by decide)⟩

/-- C10: handling a `BlockHeaderReq` a second time against the same storage, whether the
request arrives as first received or as the first handling left it (with `Len = 0`
rewritten to the maximum), makes the same `SendMsg` calls with the same `BlockHeaders`
content as the first handling, whatever the outcomes of the sends. -/
theorem headerReq_response_is_idempotent (headerHash : Header → Hash)
    (maxBlockHeaderNum : Nat) (chain : BlockChain) (sendOk1 sendOk2 : Nat → Bool)
    (sender : Peer) (len : Nat) (hashStart hashStop : Hash) :
    sentMsgs (handleMsg headerHash maxBlockHeaderNum ⟨chain, sendOk2⟩
        ⟨sender, (handleMsg headerHash maxBlockHeaderNum ⟨chain, sendOk1⟩
          ⟨sender, Payload.BlockHeaderReq len hashStart hashStop⟩).payload⟩).effects
      = sentMsgs (handleMsg headerHash maxBlockHeaderNum ⟨chain, sendOk1⟩
          ⟨sender, Payload.BlockHeaderReq len hashStart hashStop⟩).effects ∧
    sentMsgs (handleMsg headerHash maxBlockHeaderNum ⟨chain, sendOk2⟩
        ⟨sender, Payload.BlockHeaderReq len hashStart hashStop⟩).effects
      = sentMsgs (handleMsg headerHash maxBlockHeaderNum ⟨chain, sendOk1⟩
          ⟨sender, Payload.BlockHeaderReq len hashStart hashStop⟩).effects ∧
    (handleMsg headerHash maxBlockHeaderNum ⟨chain, sendOk1⟩
        ⟨sender, Payload.BlockHeaderReq len hashStart hashStop⟩).payload
      = Payload.BlockHeaderReq (effectiveLen maxBlockHeaderNum len) hashStart hashStop := by
  cases hstop : chain.GetBlockByHash hashStop with
  | none =>
    have h1 := fun ok l => handleMsg_headerReq_missing headerHash maxBlockHeaderNum
      ⟨chain, ok⟩ sender l hashStart hashStop hstop
    simp only [h1]
    simp
  | some blockStop =>
    have h1 := fun ok l => handleMsg_headerReq_found headerHash maxBlockHeaderNum
      ⟨chain, ok⟩ sender l hashStart hashStop blockStop hstop
    simp only [h1, sentMsgs_headerReqEffects, effectiveLen_idem]
    simp

/-! ## Following up on received headers -/

/-- While every send succeeds the follow-up loop sends one `BlockReq` per header above
the local height, in the order of the list, and runs to its end. -/
theorem blockReqLoop_all_sent (headerHash : Header → Hash) (sendOk : Nat → Bool)
    (sender : Peer) (currentHeight : Nat) (hsend : ∀ n, sendOk n = true)
    (headers : List Header) (n : Nat) :
    blockReqLoop headerHash sendOk sender currentHeight headers n
      = ((headers.filter (fun header => decide (currentHeight < header.Height))).map
          (fun header => Effect.SendMsg sender (Payload.BlockReq (headerHash header)) true),
         true) := by
  induction headers generalizing n with
  | nil => rfl
  | cons header rest ih =>
    by_cases hle : header.Height ≤ currentHeight
    · have hnot : ¬ currentHeight < header.Height := by omega
      simp [blockReqLoop, hle, hnot, ih n]
    · have hlt : currentHeight < header.Height := by omega
      simp [blockReqLoop, hle, hlt, hsend n, ih (n + 1)]

/-- C2: when every send succeeds, the effects of handling a `BlockHeaders` message at
local height `h` (read from `GetCurrentBlock`) are exactly one successful `SendMsg` to
the sender per header with `Height > h`, carrying a `BlockReq` with `common.HeaderHash`
of that header, issued in the order in which those headers stand in `Headers`; nothing
is sent for a header with `Height <= h`; and the loop goes on.  For a response, whose
`Headers` are in ascending height order, the requests are therefore issued in ascending
height order (strictly ascending when the heights of the response are). -/
theorem blockHeaders_requests_above_local_height_ascending (headerHash : Header → Hash)
    (maxBlockHeaderNum : Nat) (env : Env) (sender : Peer) (headers : List Header)
    (hsend : ∀ n, env.sendOk n = true) :
    (handleMsg headerHash maxBlockHeaderNum env
        ⟨sender, Payload.BlockHeaders headers⟩).effects
      = ((headers.filter (fun header =>
            decide (env.chain.GetCurrentBlock.Header.Height < header.Height))).map
          (fun header =>
            Effect.SendMsg sender (Payload.BlockReq (headerHash header)) true)) ∧
    (handleMsg headerHash maxBlockHeaderNum env
        ⟨sender, Payload.BlockHeaders headers⟩).running = true ∧
    (headers.Pairwise (fun a b => a.Height ≤ b.Height) →
      (headers.filter (fun header =>
          decide (env.chain.GetCurrentBlock.Header.Height < header.Height))).Pairwise
        (fun a b => a.Height ≤ b.Height)) ∧
    (headers.Pairwise (fun a b => a.Height < b.Height) →
      (headers.filter (fun header =>
          decide (env.chain.GetCurrentBlock.Header.Height < header.Height))).Pairwise
        (fun a b => a.Height < b.Height)) := by
  have hloop := blockReqLoop_all_sent headerHash env.sendOk sender
    env.chain.GetCurrentBlock.Header.Height hsend headers 0
  refine ⟨?_, ?_, fun hsorted => hsorted.filter _, fun hsorted => hsorted.filter _⟩
  · simp only [handleMsg, hloop]
  · simp only [handleMsg, hloop]

/-- C2 at the scenario of the specification: local height 100 and headers for heights
98 to 103, an ascending response, give requests for 101, 102 and 103, in that order. -/
theorem blockHeaders_requests_above_local_height_ascending_witness :
    (∀ n, (sampleEnv 100).sendOk n = true) ∧
    [sampleHeader 98, sampleHeader 99, sampleHeader 100, sampleHeader 101,
      sampleHeader 102, sampleHeader 103].Pairwise (fun a b => a.Height < b.Height) ∧
    (handleMsg sampleHash 100 (sampleEnv 100)
        ⟨7, Payload.BlockHeaders
          [sampleHeader 98, sampleHeader 99, sampleHeader 100, sampleHeader 101,
           sampleHeader 102, sampleHeader 103]⟩).effects
      = [Effect.SendMsg 7 (Payload.BlockReq (sampleHash (sampleHeader 101))) true,
         Effect.SendMsg 7 (Payload.BlockReq (sampleHash (sampleHeader 102))) true,
         Effect.SendMsg 7 (Payload.BlockReq (sampleHash (sampleHeader 103))) true] ∧
    ([sampleHeader 98, sampleHeader 99, sampleHeader 100, sampleHeader 101,
      sampleHeader 102, sampleHeader 103].filter (fun header =>
        decide ((sampleEnv 100).chain.GetCurrentBlock.Header.Height < header.Height))).Pairwise
      (fun a b => a.Height < b.Height) :=
  ⟨fun _ => rfl, by decide,
   (blockHeaders_requests_above_local_height_ascending sampleHash 100 (sampleEnv 100) 7
      [sampleHeader 98, sampleHeader 99, sampleHeader 100, sampleHeader 101,
       sampleHeader 102, sampleHeader 103] (fun _ => rfl)).1,
   (blockHeaders_requests_above_local_height_ascending sampleHash 100 (sampleEnv 100) 7
      [sampleHeader 98, sampleHeader 99, sampleHeader 100, sampleHeader 101,
       sampleHeader 102, sampleHeader 103] (fun _ => rfl)).2.2.2 (by decide)⟩

end Syncer
